import Mathlib

/-!
Verification development for the resize-observer polyfill core
(`ResizeObservation`, `ResizeObserverSPI`, `ResizeObserverController`).

Shallow embedding conventions:
* Watched elements are identified by `Nat` ids; the external GeometrySource
  (`getContentRect` from `utils/geometry`, an external collaborator) is
  modelled as a function `env : Nat → DOMRect` giving the current content
  rectangle of each element.
* JS numbers that the code only ever compares with `!==` are modelled as `Int`.
* Observation objects live in a heap `Nat → ResizeObservation` indexed by an
  allocation counter, so that the registry and the active list alias the same
  mutable record exactly as JS object references do.
* Consumer callbacks are modelled as functions returning `Bool`:
  `true` = the callback returned normally, `false` = it threw; an exception
  propagates (remaining work in the cycle is skipped), which the embedding
  tracks with an explicit `threw` flag.
* Host-event subscriptions and calls are recorded in an event trace `List Ev`
  so that ordering claims can be stated about what a run performs.
-/

/-- Content rectangle value (`DOMRectInit`): width/height plus edge offsets. -/
structure DOMRect where
  width : Int
  height : Int
  top : Int
  right : Int
  bottom : Int
  left : Int
deriving DecidableEq, Repr

/-- `createRectInit(0, 0, 0, 0)`: the all-zero rectangle used to initialise
`contentRect_`. -/
def rectZero : DOMRect := ⟨0, 0, 0, 0, 0, 0⟩

/-- `ResizeObservation` (src/ResizeObservation.ts): per-target record tracking
the last broadcast dimensions and the last measured content rectangle. -/
structure ResizeObservation where
  target : Nat
  broadcastWidth : Int := 0
  broadcastHeight : Int := 0
  contentRect_ : DOMRect := rectZero
deriving DecidableEq, Repr

/-- `new ResizeObservation(target)`. -/
def mkObservation (target : Nat) : ResizeObservation :=
  { target := target, broadcastWidth := 0, broadcastHeight := 0, contentRect_ := rectZero }

/-- `ResizeObservation.isActive()`: measures the target via the GeometrySource
`env`, stores the rectangle in `contentRect_` unconditionally, and reports
whether width or height differ from the last broadcast dimensions.  Returns
`(activity, updated record)`. -/
def ResizeObservation.isActive (o : ResizeObservation) (env : Nat → DOMRect) :
    Bool × ResizeObservation :=
  let rect := env o.target
  ((rect.width != o.broadcastWidth) || (rect.height != o.broadcastHeight),
   { o with contentRect_ := rect })

/-- `ResizeObservation.broadcastRect()`: commits `broadcastWidth`/`broadcastHeight`
from the last measured rectangle and returns that rectangle. -/
def ResizeObservation.broadcastRect (o : ResizeObservation) :
    DOMRect × ResizeObservation :=
  let rect := o.contentRect_
  (rect,
   { o with broadcastWidth := rect.width, broadcastHeight := rect.height })

/-- `ResizeObserverEntry`: the immutable `(target, contentRect)` notification
record built for each active observation. -/
structure ResizeObserverEntry where
  target : Nat
  contentRect : DOMRect
deriving DecidableEq, Repr

/-- MapShim `has` (shims/es6-collections): key present in the entry list. -/
def mapHas (m : List (Nat × Nat)) (k : Nat) : Bool :=
  m.any (fun e => e.1 == k)

/-- MapShim `set`: update the value at the first matching key in place,
otherwise push a new entry at the end. -/
def mapSet : List (Nat × Nat) → Nat → Nat → List (Nat × Nat)
  | [], k, v => [(k, v)]
  | e :: rest, k, v => if e.1 == k then (k, v) :: rest else e :: mapSet rest k v

/-- MapShim `delete`: splice out the first entry with a matching key. -/
def mapDelete : List (Nat × Nat) → Nat → List (Nat × Nat)
  | [], _ => []
  | e :: rest, k => if e.1 == k then rest else e :: mapDelete rest k

/-- `ResizeObserverSPI` (src/ResizeObserverSPI.ts).  `observations_` is the
MapShim registry mapping target ids to heap ids of their observation objects;
`activeObservations_` holds heap ids of observations gathered as active;
`obsHeap`/`nextId` model the JS object heap holding the (aliased, mutable)
`ResizeObservation` records.  The `callback_`/`callbackCtx_` fields are
modelled as parameters of the operations rather than state. -/
structure ResizeObserverSPI where
  activeObservations_ : List Nat := []
  observations_ : List (Nat × Nat) := []
  obsHeap : Nat → ResizeObservation := fun _ => mkObservation 0
  nextId : Nat := 0

/-- `hasActive()`: `activeObservations_.length > 0`. -/
def ResizeObserverSPI.hasActive (s : ResizeObserverSPI) : Bool :=
  decide (0 < s.activeObservations_.length)

/-- Loop of `gatherActive()`: iterate the registry in insertion order, calling
`isActive` on each observation (updating its heap record) and collecting the
heap ids of active ones in order. -/
def gatherLoop (env : Nat → DOMRect) :
    (Nat → ResizeObservation) → List (Nat × Nat) →
      (Nat → ResizeObservation) × List Nat
  | h, [] => (h, [])
  | h, e :: rest =>
    let o := h e.2
    let r := o.isActive env
    let h1 := fun j => if j = e.2 then r.2 else h j
    let rec1 := gatherLoop env h1 rest
    (rec1.1, (if r.1 then [e.2] else []) ++ rec1.2)

/-- `gatherActive()`: clears `activeObservations_` and repopulates it with the
observations whose dimensions changed, in registry iteration order. -/
def ResizeObserverSPI.gatherActive (s : ResizeObserverSPI) (env : Nat → DOMRect) :
    ResizeObserverSPI :=
  let r := gatherLoop env s.obsHeap s.observations_
  { s with obsHeap := r.1, activeObservations_ := r.2 }

/-- Loop of `broadcastActive()`'s `.map`: for each active observation commit
`broadcastRect()` (mutating its heap record) and build its entry. -/
def commitEntries :
    (Nat → ResizeObservation) → List Nat →
      (Nat → ResizeObservation) × List ResizeObserverEntry
  | h, [] => (h, [])
  | h, oid :: rest =>
    let o := h oid
    let r := o.broadcastRect
    let h1 := fun j => if j = oid then r.2 else h j
    let rec1 := commitEntries h1 rest
    (rec1.1, ResizeObserverEntry.mk o.target r.1 :: rec1.2)

/-- The entries that `broadcastActive()` passes to the consumer callback:
one `(target, contentRect)` pair per active observation, in order. -/
def ResizeObserverSPI.activeEntries (s : ResizeObserverSPI) : List ResizeObserverEntry :=
  s.activeObservations_.map
    (fun oid => ResizeObserverEntry.mk (s.obsHeap oid).target (s.obsHeap oid).contentRect_)

/-- `broadcastActive()`: no-op without active observations; otherwise builds
the entries (committing each observation's broadcast dimensions), invokes the
consumer callback, and clears the active list — unless the callback throws
(`cb _ = false`), in which case the exception propagates before `clearActive()`
runs.  Returns `(state, threw, entries delivered)`. -/
def ResizeObserverSPI.broadcastActive (s : ResizeObserverSPI)
    (cb : List ResizeObserverEntry → Bool) :
    ResizeObserverSPI × Bool × List ResizeObserverEntry :=
  if s.hasActive = false then (s, false, [])
  else
    let r := commitEntries s.obsHeap s.activeObservations_
    let s1 := { s with obsHeap := r.1 }
    if cb r.2 then ({ s1 with activeObservations_ := [] }, false, r.2)
    else (s1, true, r.2)

/-- `clearActive()`. -/
def ResizeObserverSPI.clearActive (s : ResizeObserverSPI) : ResizeObserverSPI :=
  { s with activeObservations_ := [] }

/-- Events a run records, used to state ordering claims: `gather i` /
`broadcast i` are calls of `gatherActive()` / `broadcastActive()` on observer
instance `i`; `throttleCall` is an invocation of the throttled refresh entry
point (the wrapper that the controller constructor installs as
`this.refresh`); `sub*` / `unsub*` are installations / removals of the host
change-signal subscriptions done by `connect_` / `disconnect_`. -/
inductive Ev where
  | gather (i : Nat)
  | broadcast (i : Nat)
  | throttleCall
  | subTransitionEnd
  | subResize
  | subMutation
  | subDOMSubtree
  | unsubTransitionEnd
  | unsubResize
  | unsubMutation
  | unsubDOMSubtree
deriving DecidableEq, Repr

/-- `REFRESH_DELAY`: minimum delay of the throttled refresh entry point. -/
def REFRESH_DELAY : Nat := 20

/-- `transitionKeys`: substrings of CSS property names whose transition end
may affect dimensions. -/
def transitionKeys : List String :=
  ["top", "right", "bottom", "left", "width", "height", "size", "weight"]

/-- `ResizeObserverController` (src/ResizeObserverController.ts).  Observer
instances are identified by `Nat` ids.  `refreshPending` is the state of the
throttle wrapper installed over `refresh` by the constructor; `utils/throttle`
itself is not part of the sources, so the wrapper is modelled from the spec
(see `World.refreshProxy`).  The shadow-root interception performed inside
`connect_` when `origAttachShadow` exists manipulates host prototypes only and
is outside this model. -/
structure ResizeObserverController where
  connected_ : Bool := false
  mutationEventsAdded_ : Bool := false
  mutationsObserver_ : Bool := false
  observers_ : List Nat := []
  refreshPending : Bool := false
deriving DecidableEq, Repr

/-- The controller state produced by the private constructor (`getInstance`). -/
def ResizeObserverController.init : ResizeObserverController := {}

/-- `connect_()`: installs the DOM listeners unless running outside a browser
or already connected.  `mos` is `mutationObserverSupported`. -/
def ResizeObserverController.connect_ (c : ResizeObserverController)
    (isBrowser mos : Bool) : ResizeObserverController × List Ev :=
  if !isBrowser || c.connected_ then (c, [])
  else if mos then
    ({ c with mutationsObserver_ := true, connected_ := true },
     [Ev.subTransitionEnd, Ev.subResize, Ev.subMutation])
  else
    ({ c with mutationEventsAdded_ := true, connected_ := true },
     [Ev.subTransitionEnd, Ev.subResize, Ev.subDOMSubtree])

/-- `disconnect_()`: removes the DOM listeners unless running outside a
browser or already disconnected. -/
def ResizeObserverController.disconnect_ (c : ResizeObserverController)
    (isBrowser : Bool) : ResizeObserverController × List Ev :=
  if !isBrowser || !c.connected_ then (c, [])
  else
    ({ c with
        mutationsObserver_ := false
        mutationEventsAdded_ := false
        connected_ := false },
     [Ev.unsubTransitionEnd, Ev.unsubResize] ++
       (if c.mutationsObserver_ then [Ev.unsubMutation] else []) ++
       (if c.mutationEventsAdded_ then [Ev.unsubDOMSubtree] else []))

/-- `addObserver(observer)`: push the instance unless already present, then
connect the listeners if they have not been added yet. -/
def ResizeObserverController.addObserver (c : ResizeObserverController)
    (isBrowser mos : Bool) (i : Nat) : ResizeObserverController × List Ev :=
  let c1 := if c.observers_.contains i then c
            else { c with observers_ := c.observers_ ++ [i] }
  if !c1.connected_ then c1.connect_ isBrowser mos else (c1, [])

/-- `removeObserver(observer)`: splice the instance out if present, then
remove the listeners if no connected observers remain. -/
def ResizeObserverController.removeObserver (c : ResizeObserverController)
    (isBrowser : Bool) (i : Nat) : ResizeObserverController × List Ev :=
  let c1 := { c with observers_ := c.observers_.erase i }
  if c1.observers_.isEmpty && c1.connected_ then c1.disconnect_ isBrowser
  else (c1, [])

/-- The whole modelled state: the singleton controller plus the observer
instances it may reference, indexed by instance id. -/
structure World where
  ctrl : ResizeObserverController
  spis : Nat → ResizeObserverSPI

/-- Per-instance callbacks: `cbs i entries = false` models the consumer
callback of instance `i` throwing on `entries`. -/
def Callbacks : Type := Nat → List ResizeObserverEntry → Bool

/-- Modelled from the spec: `utils/throttle.js` is not under `src/`.  Per the
spec (§4.3) the throttled entry point collapses repeated triggers within the
interval to at most one execution and guarantees a trailing execution; a call
of the wrapper never runs the underlying `refresh` synchronously — it records
the trigger to be resolved by a later timer step (`World.throttleFire`).  The
wrapper call is recorded as `Ev.throttleCall`. -/
def World.refreshProxy (w : World) : World × List Ev :=
  ({ w with ctrl := { w.ctrl with refreshPending := true } }, [Ev.throttleCall])

/-- Gather phase of `updateObservers_`: the `observers_.filter` loop, which
calls `gatherActive()` on every registered instance in order and keeps (in
order) the ids of instances with active observations.  Returns
`(world, active instance ids, events)`. -/
def gatherPhase (env : Nat → DOMRect) :
    World → List Nat → World × List Nat × List Ev
  | w, [] => (w, [], [])
  | w, i :: rest =>
    let s := (w.spis i).gatherActive env
    let w1 : World := { w with spis := fun j => if j = i then s else w.spis j }
    let rec1 := gatherPhase env w1 rest
    (rec1.1, (if s.hasActive then [i] else []) ++ rec1.2.1, Ev.gather i :: rec1.2.2)

/-- Broadcast phase of `updateObservers_`: the `activeObservers.forEach` loop.
A callback exception propagates immediately, skipping the remaining
instances; the returned `Bool` tells whether an exception is propagating. -/
def broadcastPhase (cbs : Callbacks) :
    World → List Nat → World × Bool × List Ev
  | w, [] => (w, false, [])
  | w, i :: rest =>
    let r := (w.spis i).broadcastActive (cbs i)
    let w1 : World := { w with spis := fun j => if j = i then r.1 else w.spis j }
    if r.2.1 then (w1, true, [Ev.broadcast i])
    else
      let rec1 := broadcastPhase cbs w1 rest
      (rec1.1, rec1.2.1, Ev.broadcast i :: rec1.2.2)

/-- `updateObservers_()`: gather on every registered instance, then broadcast
on the instances found active, in separate passes.  Returns
`(world, changesDetected, exception propagating, events)`. -/
def World.updateObservers_ (w : World) (cbs : Callbacks) (env : Nat → DOMRect) :
    World × Bool × Bool × List Ev :=
  let g := gatherPhase env w w.ctrl.observers_
  let b := broadcastPhase cbs g.1 g.2.1
  (b.1, decide (0 < g.2.1.length), b.2.1, g.2.2 ++ b.2.2)

/-- The body of `refresh()` (the prototype method wrapped by the throttle in
the constructor): run `updateObservers_`, and if changes were detected invoke
`this.refresh` — which, after the constructor's
`this.refresh = throttle(this.refresh.bind(this), REFRESH_DELAY)`, is the
throttled wrapper (`World.refreshProxy`).  If a consumer callback threw inside
`updateObservers_`, the exception propagates and the continuation line is
never reached. -/
def World.refresh (w : World) (cbs : Callbacks) (env : Nat → DOMRect) :
    World × List Ev :=
  let r := w.updateObservers_ cbs env
  if r.2.2.1 then (r.1, r.2.2.2)
  else if r.2.1 then
    let p := r.1.refreshProxy
    (p.1, r.2.2.2 ++ p.2)
  else (r.1, r.2.2.2)

/-- Modelled from the spec: the timer step of the absent `utils/throttle.js` —
a pending trigger recorded by the wrapper later runs the underlying `refresh`
body once. -/
def World.throttleFire (w : World) (cbs : Callbacks) (env : Nat → DOMRect) :
    World × List Ev :=
  if w.ctrl.refreshPending then
    let w1 : World := { w with ctrl := { w.ctrl with refreshPending := false } }
    w1.refresh cbs env
  else (w, [])

/-- `ResizeObserverSPI.observe(target)` for instance `i` (the Element
validation against the host environment is outside the model; targets are
valid element ids).  No-op when the target is already registered; otherwise
registers a fresh `ResizeObservation`, adds the instance to the controller,
and forces an update through `this.controller_.refresh()` — the throttled
entry point. -/
def World.observe (w : World) (isBrowser mos : Bool) (i t : Nat) :
    World × List Ev :=
  let s := w.spis i
  if mapHas s.observations_ t then (w, [])
  else
    let oid := s.nextId
    let s1 : ResizeObserverSPI :=
      { s with
          obsHeap := fun j => if j = oid then mkObservation t else s.obsHeap j
          observations_ := mapSet s.observations_ t oid
          nextId := oid + 1 }
    let w1 : World := { w with spis := fun j => if j = i then s1 else w.spis j }
    let a := w1.ctrl.addObserver isBrowser mos i
    let w2 : World := { w1 with ctrl := a.1 }
    let p := w2.refreshProxy
    (p.1, a.2 ++ p.2)

/-- `ResizeObserverSPI.unobserve(target)` for instance `i`: no-op when the
target is not registered; otherwise deletes its observation from the registry
(and nothing else — `activeObservations_` is untouched), dropping the instance
from the controller when the registry becomes empty. -/
def World.unobserve (w : World) (isBrowser : Bool) (i t : Nat) :
    World × List Ev :=
  let s := w.spis i
  if !(mapHas s.observations_ t) then (w, [])
  else
    let s1 : ResizeObserverSPI := { s with observations_ := mapDelete s.observations_ t }
    let w1 : World := { w with spis := fun j => if j = i then s1 else w.spis j }
    if s1.observations_.isEmpty then
      let r := w1.ctrl.removeObserver isBrowser i
      ({ w1 with ctrl := r.1 }, r.2)
    else (w1, [])

/-- `ResizeObserverSPI.disconnect()` for instance `i`: clears the active list,
clears the registry, and drops the instance from the controller. -/
def World.disconnect (w : World) (isBrowser : Bool) (i : Nat) :
    World × List Ev :=
  let s := ((w.spis i).clearActive)
  let s1 : ResizeObserverSPI := { s with observations_ := [] }
  let w1 : World := { w with spis := fun j => if j = i then s1 else w.spis j }
  let r := w1.ctrl.removeObserver isBrowser i
  ({ w1 with ctrl := r.1 }, r.2)

/-- JS `String.prototype.startsWith`-style check used to model `indexOf`:
does `s` start with `pat`? -/
def jsStartsWith : List Char → List Char → Bool
  | _, [] => true
  | [], _ :: _ => false
  | c :: cs, p :: ps => c == p && jsStartsWith cs ps

/-- Model of `String.prototype.indexOf`: index of the first occurrence of
`pat` in `s`, or `-1`. -/
def jsIndexOfAux (pat : List Char) : List Char → Int
  | [] => if jsStartsWith [] pat then 0 else -1
  | c :: rest =>
    if jsStartsWith (c :: rest) pat then 0
    else
      let r := jsIndexOfAux pat rest
      if r == -1 then -1 else r + 1

/-- `s.indexOf(pat)` on strings. -/
def jsIndexOf (s pat : String) : Int := jsIndexOfAux pat.data s.data

/-- `onTransitionEnd_({propertyName = ''})`: triggers the throttled `refresh`
when the finished transition's property name contains one of
`transitionKeys` as a substring (`!!~propertyName.indexOf(key)`). -/
def World.onTransitionEnd_ (w : World) (propertyName : String) :
    World × List Ev :=
  let isReflowProperty := transitionKeys.any (fun key => !(jsIndexOf propertyName key == -1))
  if isReflowProperty then w.refreshProxy else (w, [])

/-- An observation whose measured dimensions agree with its broadcast
dimensions: `isActive` will report `false` for it. -/
def obsInactive (env : Nat → DOMRect) (o : ResizeObservation) : Bool :=
  (env o.target).width == o.broadcastWidth && (env o.target).height == o.broadcastHeight

/-- Every registered observation of the instance currently measures as
unchanged (the "full gather pass finds zero active observations" condition
of the spec, per instance). -/
def ResizeObserverSPI.allInactive (s : ResizeObserverSPI) (env : Nat → DOMRect) : Bool :=
  s.observations_.all (fun e => obsInactive env (s.obsHeap e.2))

/-- The effect of `broadcastRect()` on the observation record alone. -/
def commitObs (o : ResizeObservation) : ResizeObservation :=
  { o with
      broadcastWidth := o.contentRect_.width
      broadcastHeight := o.contentRect_.height }

/-- Controller well-formedness: listeners are connected exactly when the
observer list is non-empty (holds for every state reachable from
`ResizeObserverController.init` through `addObserver`/`removeObserver` in a
browser environment). -/
def wfController (c : ResizeObserverController) : Bool :=
  c.connected_ == !c.observers_.isEmpty

/-! Concrete inputs used by witnesses and counterexamples. -/

/-- A 100×50 content rectangle. -/
def rectA : DOMRect := ⟨100, 50, 0, 100, 50, 0⟩

/-- GeometrySource giving every element the 100×50 rectangle. -/
def envA : Nat → DOMRect := fun _ => rectA

/-- Callbacks that all return normally. -/
def cbsOk : Callbacks := fun _ _ => true

/-- A consumer callback that throws. -/
def cbThrow : List ResizeObserverEntry → Bool := fun _ => false

/-- Instance state observing element 5 with a freshly created observation. -/
def spiFresh : ResizeObserverSPI :=
  { activeObservations_ := []
    observations_ := [(5, 0)]
    obsHeap := fun _ => mkObservation 5
    nextId := 1 }

/-- Instance state observing element 5, already broadcast at 100×50. -/
def spiQuiet : ResizeObserverSPI :=
  { activeObservations_ := []
    observations_ := [(5, 0)]
    obsHeap := fun _ => ⟨5, 100, 50, rectA⟩
    nextId := 1 }

/-- Instance state just after a gather pass found element 5 active. -/
def spiGathered : ResizeObserverSPI :=
  { activeObservations_ := [0]
    observations_ := [(5, 0)]
    obsHeap := fun _ => ⟨5, 0, 0, rectA⟩
    nextId := 1 }

/-- A connected controller tracking instance 0. -/
def ctrlOne : ResizeObserverController :=
  { connected_ := true
    mutationsObserver_ := true
    observers_ := [0] }

/-- World with one instance whose observation has not been broadcast yet. -/
def wFresh : World := ⟨ctrlOne, fun _ => spiFresh⟩

/-- World with one instance whose observation is up to date. -/
def wQuiet : World := ⟨ctrlOne, fun _ => spiQuiet⟩

/-- World with one instance holding a gathered active observation. -/
def wGathered : World := ⟨ctrlOne, fun _ => spiGathered⟩

/-! Helper lemmas. -/

theorem mapHas_mapSet (m : List (Nat × Nat)) (k v : Nat) :
    mapHas (mapSet m k v) k = true := by
  induction m with
  | nil => simp [mapSet, mapHas]
  | cons e rest ih =>
    cases h : e.1 == k with
    | true => simp [mapSet, h, mapHas]
    | false =>
      simp only [mapSet, h, Bool.false_eq_true, if_false, mapHas, List.any_cons, h,
        Bool.false_or]
      simpa [mapHas] using ih

theorem commitObs_commitObs (o : ResizeObservation) :
    commitObs (commitObs o) = commitObs o := by
  cases o; rfl

theorem broadcastRect_snd (o : ResizeObservation) :
    (o.broadcastRect).2 = commitObs o := rfl

theorem commitEntries_heap : ∀ (ids : List Nat) (h : Nat → ResizeObservation)
    (oid : Nat), (commitEntries h ids).1 oid =
      if oid ∈ ids then commitObs (h oid) else h oid := by
  intro ids
  induction ids with
  | nil => intro h oid; simp [commitEntries]
  | cons a rest ih =>
    intro h oid
    simp only [commitEntries]
    rw [ih]
    by_cases hm : oid ∈ rest
    · simp only [hm, if_true, List.mem_cons, Or.intro_right, hm, or_true, if_pos]
      by_cases ha : oid = a
      · subst ha; simp [broadcastRect_snd, commitObs_commitObs]
      · simp [ha]
    · simp only [hm, if_false, List.mem_cons, hm, or_false]
      by_cases ha : oid = a
      · subst ha; simp [broadcastRect_snd]
      · simp [ha, hm]

theorem commitEntries_entries : ∀ (ids : List Nat) (h : Nat → ResizeObservation),
    (commitEntries h ids).2 =
      ids.map (fun oid => ResizeObserverEntry.mk (h oid).target (h oid).contentRect_) := by
  intro ids
  induction ids with
  | nil => intro h; rfl
  | cons a rest ih =>
    intro h
    simp only [commitEntries, ih, List.map_cons]
    congr 1
    apply List.map_congr_left
    intro oid _
    by_cases ha : oid = a
    · subst ha; simp [broadcastRect_snd, commitObs]
    · simp [ha]

theorem broadcastActive_entries (s : ResizeObserverSPI)
    (cb : List ResizeObserverEntry → Bool) (hAct : s.hasActive = true) :
    (s.broadcastActive cb).2.2 = s.activeEntries := by
  simp only [ResizeObserverSPI.broadcastActive, hAct, Bool.true_eq_false, if_false,
    commitEntries_entries]
  split <;> rfl

/-- Claim C3: `isActive()` stores the freshly measured rectangle in
`contentRect_` unconditionally (leaving `target` and the broadcast dimensions
untouched) and returns `true` exactly when the measured width differs from
`broadcastWidth` or the measured height differs from `broadcastHeight`; in
particular a change confined to the offsets (top/right/bottom/left) never
makes it return `true`. -/
theorem isActive_stores_rect_and_checks_dimensions (o : ResizeObservation)
    (env : Nat → DOMRect) :
    (o.isActive env).2.contentRect_ = env o.target ∧
    (o.isActive env).2.broadcastWidth = o.broadcastWidth ∧
    (o.isActive env).2.broadcastHeight = o.broadcastHeight ∧
    (o.isActive env).2.target = o.target ∧
    ((o.isActive env).1 = true ↔
      (env o.target).width ≠ o.broadcastWidth ∨
      (env o.target).height ≠ o.broadcastHeight) := by
  refine ⟨rfl, rfl, rfl, rfl, ?_⟩
  simp [ResizeObservation.isActive]

/-- Claim C4: `broadcastRect()` commits `broadcastWidth`/`broadcastHeight` to
exactly the dimensions of the most recent measured rectangle, returns that
rectangle, and leaves `target` and `contentRect_` unchanged; calling it again
with no intervening measurement returns the same rectangle and leaves the
state fixed (the result and post-state depend only on the last measurement). -/
theorem broadcastRect_commits_last_measured (o : ResizeObservation) :
    (o.broadcastRect).1 = o.contentRect_ ∧
    (o.broadcastRect).2.broadcastWidth = o.contentRect_.width ∧
    (o.broadcastRect).2.broadcastHeight = o.contentRect_.height ∧
    (o.broadcastRect).2.contentRect_ = o.contentRect_ ∧
    (o.broadcastRect).2.target = o.target ∧
    (o.broadcastRect).2.broadcastRect = o.broadcastRect := by
  cases o
  exact ⟨rfl, rfl, rfl, rfl, rfl, rfl⟩

/-- Claim C9: when the consumer callback throws inside `broadcastActive()`,
the broadcast dimensions of every observation in the active set have already
been committed from its measured rectangle at the moment the exception
propagates, while `activeObservations_` is not cleared, so `hasActive()` is
still true afterwards. -/
theorem broadcastActive_commits_before_callback_throw (s : ResizeObserverSPI)
    (cb : List ResizeObserverEntry → Bool) (hAct : s.hasActive = true)
    (hcb : cb s.activeEntries = false) :
    (s.broadcastActive cb).2.1 = true ∧
    (s.broadcastActive cb).1.activeObservations_ = s.activeObservations_ ∧
    (s.broadcastActive cb).1.hasActive = true ∧
    ∀ oid ∈ s.activeObservations_,
      ((s.broadcastActive cb).1.obsHeap oid).broadcastWidth =
        (s.obsHeap oid).contentRect_.width ∧
      ((s.broadcastActive cb).1.obsHeap oid).broadcastHeight =
        (s.obsHeap oid).contentRect_.height := by
  have hentries : (commitEntries s.obsHeap s.activeObservations_).2 = s.activeEntries := by
    rw [commitEntries_entries]; rfl
  simp only [ResizeObserverSPI.broadcastActive, hAct, Bool.true_eq_false, if_false,
    hentries, hcb, Bool.false_eq_true]
  refine ⟨trivial, trivial, hAct, ?_⟩
  intro oid hmem
  rw [commitEntries_heap, if_pos hmem]
  exact ⟨rfl, rfl⟩

/-- Witness for C9: the hypotheses hold and the conclusion follows at the
concrete gathered instance state with a throwing callback. -/
theorem broadcastActive_commits_before_callback_throw_witness :
    (spiGathered.hasActive = true ∧ cbThrow spiGathered.activeEntries = false) ∧
    (spiGathered.broadcastActive cbThrow).2.1 = true ∧
    ((spiGathered.broadcastActive cbThrow).1.obsHeap 0).broadcastWidth = 100 := by
  have h := broadcastActive_commits_before_callback_throw spiGathered cbThrow rfl rfl
  refine ⟨⟨rfl, rfl⟩, h.1, ?_⟩
  have h2 := (h.2.2.2 0 (by simp [spiGathered])).1
  simpa [spiGathered, rectA] using h2

/-- Claim C10: `unobserve()` of a registered target deletes its observation
from the registry but never touches `activeObservations_` (unlike
`disconnect()`, which clears it); consequently an observation deregistered
after a gather pass is still included in the entries that the following
`broadcastActive()` delivers. -/
theorem unobserve_preserves_active_set (w : World) (isBrowser : Bool) (i t oid : Nat)
    (cb : List ResizeObserverEntry → Bool)
    (hReg : mapHas (w.spis i).observations_ t = true)
    (hMem : oid ∈ (w.spis i).activeObservations_)
    (hTgt : ((w.spis i).obsHeap oid).target = t) :
    ((w.unobserve isBrowser i t).1.spis i).activeObservations_ =
      (w.spis i).activeObservations_ ∧
    ((w.unobserve isBrowser i t).1.spis i).observations_ =
      mapDelete (w.spis i).observations_ t ∧
    (∃ e ∈ (((w.unobserve isBrowser i t).1.spis i).broadcastActive cb).2.2,
      e.target = t) ∧
    ((w.disconnect isBrowser i).1.spis i).activeObservations_ = [] := by
  have hspi : (w.unobserve isBrowser i t).1.spis i =
      { w.spis i with observations_ := mapDelete (w.spis i).observations_ t } := by
    simp only [World.unobserve, hReg, Bool.not_true, Bool.false_eq_true, if_false]
    split <;> simp
  have hAct : ({ w.spis i with
      observations_ := mapDelete (w.spis i).observations_ t } : ResizeObserverSPI).hasActive
      = true := by
    simp only [ResizeObserverSPI.hasActive, decide_eq_true_eq]
    exact List.length_pos.mpr (List.ne_nil_of_mem hMem)
  refine ⟨by rw [hspi], by rw [hspi], ?_, ?_⟩
  · rw [hspi, broadcastActive_entries _ _ hAct]
    simp only [ResizeObserverSPI.activeEntries]
    exact ⟨_, List.mem_map_of_mem _ hMem, hTgt⟩
  · simp [World.disconnect, ResizeObserverSPI.clearActive]

/-- Witness for C10: the hypotheses hold at the concrete world in which a
gather pass has just found element 5 active, and the broadcast after
deregistration still reports it. -/
theorem unobserve_preserves_active_set_witness :
    (mapHas (wGathered.spis 0).observations_ 5 = true ∧
     0 ∈ (wGathered.spis 0).activeObservations_ ∧
     ((wGathered.spis 0).obsHeap 0).target = 5) ∧
    ((wGathered.unobserve true 0 5).1.spis 0).activeObservations_ =
      (wGathered.spis 0).activeObservations_ ∧
    (∃ e ∈ (((wGathered.unobserve true 0 5).1.spis 0).broadcastActive cbThrow).2.2,
      e.target = 5) := by
  have h := unobserve_preserves_active_set wGathered true 0 5 0 cbThrow rfl
    (by simp [wGathered, spiGathered]) rfl
  exact ⟨⟨rfl, by simp [wGathered, spiGathered], rfl⟩, h.1, h.2.2.1⟩

theorem observe_noop_of_registered (w : World) (isBrowser mos : Bool) (i t : Nat)
    (h : mapHas (w.spis i).observations_ t = true) :
    w.observe isBrowser mos i t = (w, []) := by
  simp [World.observe, h]

/-- Claim C6: registering a target that is already present in the registry is
a complete no-op (`observe` returns with the world unchanged before touching
the registry, the controller, or the throttle), so a second `observe` of the
same target leaves exactly the state produced by the first call. -/
theorem observe_idempotent :
    (∀ (w : World) (isBrowser mos : Bool) (i t : Nat),
      mapHas (w.spis i).observations_ t = true →
        w.observe isBrowser mos i t = (w, [])) ∧
    (∀ (w : World) (isBrowser mos : Bool) (i t : Nat),
      (w.observe isBrowser mos i t).1.observe isBrowser mos i t =
        ((w.observe isBrowser mos i t).1, [])) := by
  refine ⟨fun w ib mos i t h => observe_noop_of_registered w ib mos i t h, ?_⟩
  intro w ib mos i t
  by_cases h : mapHas (w.spis i).observations_ t = true
  · rw [observe_noop_of_registered w ib mos i t h]
    exact observe_noop_of_registered w ib mos i t h
  · apply observe_noop_of_registered
    simp only [World.observe, h, Bool.false_eq_true, if_false]
    simp [World.refreshProxy, mapHas_mapSet]

/-- Witness for C6: at the concrete world already observing element 5, the
registered-target hypothesis holds and a repeated `observe` is a no-op. -/
theorem observe_idempotent_witness :
    (mapHas (wFresh.spis 0).observations_ 5 = true) ∧
    wFresh.observe true true 0 5 = (wFresh, []) ∧
    (wFresh.observe true true 0 7).1.observe true true 0 7 =
      ((wFresh.observe true true 0 7).1, []) := by
  exact ⟨rfl, observe_idempotent.1 wFresh true true 0 5 rfl,
    observe_idempotent.2 wFresh true true 0 7⟩

theorem jsStartsWith_iff : ∀ (s pat : List Char),
    jsStartsWith s pat = true ↔ ∃ r, s = pat ++ r := by
  intro s pat
  induction pat generalizing s with
  | nil => simp [jsStartsWith]
  | cons p ps ih =>
    cases s with
    | nil => simp [jsStartsWith]
    | cons c cs => simp [jsStartsWith, ih cs]

theorem jsIndexOfAux_ge (pat : List Char) : ∀ (s : List Char),
    -1 ≤ jsIndexOfAux pat s := by
  intro s
  induction s with
  | nil =>
    simp only [jsIndexOfAux]
    split <;> omega
  | cons c rest ih =>
    simp only [jsIndexOfAux]
    split
    · omega
    · split <;> omega

theorem jsIndexOfAux_ne_iff (pat : List Char) : ∀ (s : List Char),
    jsIndexOfAux pat s ≠ -1 ↔ ∃ l r, s = l ++ pat ++ r := by
  intro s
  induction s with
  | nil =>
    simp only [jsIndexOfAux]
    cases h : jsStartsWith [] pat with
    | true =>
      obtain ⟨r, hr⟩ := (jsStartsWith_iff [] pat).mp h
      have hp : pat = [] := by
        rcases List.append_eq_nil.mp hr.symm with ⟨h1, _⟩
        exact h1
      subst hp
      simp
    | false =>
      have hp : pat ≠ [] := by
        intro he
        subst he
        simp [jsStartsWith] at h
      simp only [if_false, Bool.false_eq_true, ne_eq, not_true_eq_false, false_iff]
      rintro ⟨l, r, hlr⟩
      rcases List.append_eq_nil.mp hlr.symm with ⟨h1, h2⟩
      rcases List.append_eq_nil.mp h1 with ⟨_, h3⟩
      exact hp h3
  | cons c rest ih =>
    simp only [jsIndexOfAux]
    cases h : jsStartsWith (c :: rest) pat with
    | true =>
      obtain ⟨r, hr⟩ := (jsStartsWith_iff _ pat).mp h
      simp only [if_true, ne_eq]
      constructor
      · intro _
        exact ⟨[], r, by simpa using hr⟩
      · intro _
        omega
    | false =>
      simp only [Bool.false_eq_true, if_false]
      have hge := jsIndexOfAux_ge pat rest
      constructor
      · intro hne
        have hr : jsIndexOfAux pat rest ≠ -1 := by
          intro he
          simp [he] at hne
        obtain ⟨l, r, hlr⟩ := (ih).mp hr
        exact ⟨c :: l, r, by simp [hlr]⟩
      · rintro ⟨l, r, hlr⟩
        cases l with
        | nil =>
          exfalso
          have : jsStartsWith (c :: rest) pat = true :=
            (jsStartsWith_iff _ pat).mpr ⟨r, by simpa using hlr⟩
          rw [this] at h
          cases h
        | cons c2 l2 =>
          have hc : c2 = c ∧ rest = l2 ++ pat ++ r := by
            have := hlr
            simp only [List.cons_append, List.cons.injEq] at this
            exact ⟨this.1.symm, this.2⟩
          have hr : jsIndexOfAux pat rest ≠ -1 :=
            (ih).mpr ⟨l2, r, hc.2⟩
          cases hb : jsIndexOfAux pat rest == -1 with
          | true => exact absurd (by simpa using hb) hr
          | false =>
            simp only [hb, Bool.false_eq_true, if_false, ne_eq]
            omega

theorem transitionKeys_cond (name : String) :
    (transitionKeys.any (fun key => !(jsIndexOf name key == -1)) = true) ↔
      ∃ k ∈ transitionKeys, ∃ l r, name.data = l ++ k.data ++ r := by
  rw [List.any_eq_true]
  constructor
  · rintro ⟨k, hk, hcond⟩
    refine ⟨k, hk, ?_⟩
    simp only [Bool.not_eq_true', beq_eq_false_iff_ne] at hcond
    exact (jsIndexOfAux_ne_iff k.data name.data).mp hcond
  · rintro ⟨k, hk, hsub⟩
    refine ⟨k, hk, ?_⟩
    simp only [Bool.not_eq_true', beq_eq_false_iff_ne]
    exact (jsIndexOfAux_ne_iff k.data name.data).mpr hsub

/-- Claim C8: the transition-end handler triggers the throttled `refresh`
exactly when the finished property's name contains (as a substring, not an
exact match) one of the eight fixed keys `top`, `right`, `bottom`, `left`,
`width`, `height`, `size`, `weight`. -/
theorem onTransitionEnd_triggers_iff_key_substring (w : World) (name : String) :
    (w.onTransitionEnd_ name).2 = [Ev.throttleCall] ↔
      ∃ k ∈ (["top", "right", "bottom", "left", "width", "height", "size", "weight"] :
        List String), ∃ l r, name.data = l ++ k.data ++ r := by
  have hc := transitionKeys_cond name
  simp only [transitionKeys] at hc
  simp only [World.onTransitionEnd_]
  cases hAny : (["top", "right", "bottom", "left", "width", "height", "size", "weight"] :
      List String).any (fun key => !(jsIndexOf name key == -1)) with
  | true =>
    rw [show transitionKeys = ["top", "right", "bottom", "left", "width", "height",
      "size", "weight"] from rfl, hAny]
    simp only [if_true, World.refreshProxy, true_iff]
    exact hc.mp hAny
  | false =>
    rw [show transitionKeys = ["top", "right", "bottom", "left", "width", "height",
      "size", "weight"] from rfl, hAny]
    simp only [Bool.false_eq_true, if_false]
    constructor
    · intro he
      cases he
    · intro hex
      rw [hc.mpr hex] at hAny
      cases hAny

theorem gatherPhase_events (env : Nat → DOMRect) : ∀ (l : List Nat) (w : World),
    (gatherPhase env w l).2.2 = l.map Ev.gather := by
  intro l
  induction l with
  | nil => intro w; rfl
  | cons i rest ih => intro w; simp [gatherPhase, ih]

theorem broadcastPhase_events (cbs : Callbacks) : ∀ (l : List Nat) (w : World),
    ∀ e ∈ (broadcastPhase cbs w l).2.2, ∃ i, e = Ev.broadcast i := by
  intro l
  induction l with
  | nil => intro w e he; cases he
  | cons i rest ih =>
    intro w e he
    simp only [broadcastPhase] at he
    split at he
    · rcases List.mem_singleton.mp he with rfl
      exact ⟨i, rfl⟩
    · rcases List.mem_cons.mp he with rfl | hmem
      · exact ⟨i, rfl⟩
      · exact ih _ e hmem

theorem events_order (gs bs : List Ev)
    (hg : ∀ e ∈ gs, ∃ i, e = Ev.gather i)
    (hb : ∀ e ∈ bs, ∃ i, e = Ev.broadcast i) :
    ∀ (p q a b : Nat), (gs ++ bs)[p]? = some (Ev.gather a) →
      (gs ++ bs)[q]? = some (Ev.broadcast b) → p < q := by
  intro p q a b hp hq
  have hplen : p < gs.length := by
    by_contra hc
    push_neg at hc
    rw [List.getElem?_append_right hc] at hp
    obtain ⟨i, hi⟩ := hb _ (List.getElem?_mem hp)
    cases hi
  have hqlen : gs.length ≤ q := by
    by_contra hc
    push_neg at hc
    rw [List.getElem?_append, if_pos hc] at hq
    obtain ⟨i, hi⟩ := hg _ (List.getElem?_mem hq)
    cases hi
  omega

/-- Claim C1: within one `updateObservers_()` pass, `gatherActive()` is called
on every registered observer instance (in registration order) and the whole
gather pass precedes every `broadcastActive()` call: the event trace is the
full gather sequence followed by a pure broadcast suffix, and every gather
event has a strictly smaller index than every broadcast event. -/
theorem updateObservers_gathers_all_before_any_broadcast (w : World)
    (cbs : Callbacks) (env : Nat → DOMRect) :
    ∃ bs, (w.updateObservers_ cbs env).2.2.2 = w.ctrl.observers_.map Ev.gather ++ bs ∧
      (∀ e ∈ bs, ∃ i, e = Ev.broadcast i) ∧
      ∀ (p q a b : Nat), ((w.updateObservers_ cbs env).2.2.2)[p]? = some (Ev.gather a) →
        ((w.updateObservers_ cbs env).2.2.2)[q]? = some (Ev.broadcast b) → p < q := by
  have htr : (w.updateObservers_ cbs env).2.2.2 =
      w.ctrl.observers_.map Ev.gather ++
        (broadcastPhase cbs (gatherPhase env w w.ctrl.observers_).1
          (gatherPhase env w w.ctrl.observers_).2.1).2.2 := by
    simp only [World.updateObservers_]
    rw [gatherPhase_events]
  refine ⟨_, htr, broadcastPhase_events cbs _ _, ?_⟩
  rw [htr]
  apply events_order
  · intro e he
    obtain ⟨i, _, hi⟩ := List.mem_map.mp he
    exact ⟨i, hi.symm⟩
  · exact broadcastPhase_events cbs _ _

/-- Witness for C1: at the concrete one-instance world, the trace decomposes
as required and the ordering part applies at indices 0 and 1. -/
theorem updateObservers_gathers_all_before_any_broadcast_witness :
    (wFresh.updateObservers_ cbsOk envA).2.2.2 = [Ev.gather 0, Ev.broadcast 0] ∧
    (0 : Nat) < 1 := by
  refine ⟨rfl, ?_⟩
  obtain ⟨bs, _, _, h3⟩ :=
    updateObservers_gathers_all_before_any_broadcast wFresh cbsOk envA
  exact h3 0 1 0 0 rfl rfl

theorem isActive_fst_eq_not_inactive (o : ResizeObservation) (env : Nat → DOMRect) :
    (o.isActive env).1 = !(obsInactive env o) := by
  simp only [ResizeObservation.isActive, obsInactive, Bool.not_and]
  rfl

theorem obsInactive_set_contentRect (env : Nat → DOMRect) (o : ResizeObservation)
    (r : DOMRect) : obsInactive env { o with contentRect_ := r } = obsInactive env o := rfl

theorem gatherLoop_heap_inactive (env : Nat → DOMRect) : ∀ (l : List (Nat × Nat))
    (h : Nat → ResizeObservation) (oid : Nat),
    obsInactive env ((gatherLoop env h l).1 oid) = obsInactive env (h oid) := by
  intro l
  induction l with
  | nil => intro h oid; rfl
  | cons e rest ih =>
    intro h oid
    simp only [gatherLoop]
    rw [ih]
    by_cases he : oid = e.2
    · subst he
      simp [ResizeObservation.isActive, obsInactive]
    · simp [he]

theorem gatherLoop_inactive_nil (env : Nat → DOMRect) : ∀ (l : List (Nat × Nat))
    (h : Nat → ResizeObservation),
    (∀ e ∈ l, obsInactive env (h e.2) = true) → (gatherLoop env h l).2 = [] := by
  intro l
  induction l with
  | nil => intro h _; rfl
  | cons e rest ih =>
    intro h hall
    simp only [gatherLoop]
    rw [isActive_fst_eq_not_inactive, hall e (List.mem_cons_self e rest), Bool.not_true]
    simp only [Bool.false_eq_true, if_false, List.nil_append]
    apply ih
    intro e2 he2
    by_cases hsame : e2.2 = e.2
    · rw [hsame]
      simp [ResizeObservation.isActive, obsInactive_set_contentRect]
      have := hall e (List.mem_cons_self e rest)
      simpa [obsInactive] using this
    · simp only [hsame, if_neg]
      exact hall e2 (List.mem_cons_of_mem _ he2)

theorem allInactive_gather_nil (s : ResizeObserverSPI) (env : Nat → DOMRect)
    (hall : s.allInactive env = true) :
    (s.gatherActive env).activeObservations_ = [] ∧
    (s.gatherActive env).hasActive = false := by
  have h1 : (gatherLoop env s.obsHeap s.observations_).2 = [] := by
    apply gatherLoop_inactive_nil
    intro e he
    exact List.all_eq_true.mp hall e he
  constructor
  · simp [ResizeObserverSPI.gatherActive, h1]
  · simp [ResizeObserverSPI.gatherActive, ResizeObserverSPI.hasActive, h1]

theorem allInactive_gather_preserved (s : ResizeObserverSPI) (env : Nat → DOMRect)
    (hall : s.allInactive env = true) :
    (s.gatherActive env).allInactive env = true := by
  simp only [ResizeObserverSPI.allInactive, List.all_eq_true] at hall ⊢
  intro e he
  simp only [ResizeObserverSPI.gatherActive]
  rw [gatherLoop_heap_inactive]
  exact hall e he

theorem gatherPhase_ctrl (env : Nat → DOMRect) : ∀ (l : List Nat) (w : World),
    (gatherPhase env w l).1.ctrl = w.ctrl := by
  intro l
  induction l with
  | nil => intro w; rfl
  | cons i rest ih => intro w; simp [gatherPhase, ih]

theorem gatherPhase_inactive_nil (env : Nat → DOMRect) : ∀ (l : List Nat) (w : World),
    (∀ i ∈ l, (w.spis i).allInactive env = true) →
    (gatherPhase env w l).2.1 = [] := by
  intro l
  induction l with
  | nil => intro w _; rfl
  | cons i rest ih =>
    intro w hall
    have hi := hall i (List.mem_cons_self i rest)
    have hg := allInactive_gather_nil (w.spis i) env hi
    simp only [gatherPhase]
    rw [hg.2]
    simp only [Bool.false_eq_true, if_false, List.nil_append]
    apply ih
    intro j hj
    by_cases hsame : j = i
    · subst hsame
      simp only [if_pos rfl]
      exact allInactive_gather_preserved _ env hi
    · simp only [hsame, if_neg]
      exact hall j (List.mem_cons_of_mem _ hj)

/-- Claim C5: when a gather pass finds every registered observation of every
registered instance unchanged, `refresh()` performs exactly one gather pass
and stops: the trace contains one `gatherActive()` call per registered
instance and nothing else — no `broadcastActive()` call and no re-invocation
of the refresh entry point — and the throttle's pending flag is untouched. -/
theorem refresh_no_active_single_gather_pass (w : World) (cbs : Callbacks)
    (env : Nat → DOMRect)
    (hall : w.ctrl.observers_.all (fun i => (w.spis i).allInactive env) = true) :
    (w.refresh cbs env).2 = w.ctrl.observers_.map Ev.gather ∧
    (w.refresh cbs env).1.ctrl.refreshPending = w.ctrl.refreshPending := by
  have hact : (gatherPhase env w w.ctrl.observers_).2.1 = [] := by
    apply gatherPhase_inactive_nil
    intro i hi
    exact List.all_eq_true.mp hall i hi
  have hupd : w.updateObservers_ cbs env =
      ((gatherPhase env w w.ctrl.observers_).1, false, false,
        w.ctrl.observers_.map Ev.gather) := by
    simp only [World.updateObservers_, hact, broadcastPhase]
    rw [gatherPhase_events]
    simp
  constructor
  · simp [World.refresh, hupd]
  · simp [World.refresh, hupd, gatherPhase_ctrl]

/-- Witness for C5: the all-inactive hypothesis holds at the concrete quiet
world, where a `refresh()` run performs just the single gather. -/
theorem refresh_no_active_single_gather_pass_witness :
    (wQuiet.ctrl.observers_.all (fun i => (wQuiet.spis i).allInactive envA) = true) ∧
    (wQuiet.refresh cbsOk envA).2 = wQuiet.ctrl.observers_.map Ev.gather := by
  exact ⟨rfl, (refresh_no_active_single_gather_pass wQuiet cbsOk envA rfl).1⟩

/-- Counterexample for C2 as stated.  At the concrete world `wFresh` a change
is detected, and the trace of the `refresh()` body shows the continuation is
NOT an unthrottled back-to-back pass: the run performs a single gather pass,
a broadcast, and then one invocation of the throttled entry point
(`Ev.throttleCall` — `this.refresh`, which the constructor replaced with the
throttle wrapper), leaving a pending throttled trigger instead of reaching
convergence within the call. -/
theorem refresh_continuation_not_unthrottled_cex :
    (wFresh.refresh cbsOk envA).2 = [Ev.gather 0, Ev.broadcast 0, Ev.throttleCall] ∧
    Ev.throttleCall ∈ (wFresh.refresh cbsOk envA).2 ∧
    (wFresh.refresh cbsOk envA).1.ctrl.refreshPending = true := by
  refine ⟨rfl, ?_, rfl⟩
  rw [show (wFresh.refresh cbsOk envA).2 =
    [Ev.gather 0, Ev.broadcast 0, Ev.throttleCall] from rfl]
  simp

/-- Claim C2 (amended): the self-recursive continuation call of the refresh
loop goes through the throttled entry point, not around it.  Whenever
`updateObservers_()` detects changes (and no callback threw), the `refresh()`
body ends by invoking `this.refresh` — the throttle wrapper installed by the
constructor — so the trace ends with `Ev.throttleCall` and the continuation
is left as a pending throttled trigger rather than being run back-to-back. -/
theorem refresh_continuation_via_throttled_entry (w : World) (cbs : Callbacks)
    (env : Nat → DOMRect)
    (hthrew : (w.updateObservers_ cbs env).2.2.1 = false)
    (hch : (w.updateObservers_ cbs env).2.1 = true) :
    (w.refresh cbs env).2 = (w.updateObservers_ cbs env).2.2.2 ++ [Ev.throttleCall] ∧
    (w.refresh cbs env).1.ctrl.refreshPending = true := by
  constructor
  · simp [World.refresh, hthrew, hch, World.refreshProxy]
  · simp [World.refresh, hthrew, hch, World.refreshProxy]

/-- Witness for C2's amended theorem: the changed/no-throw hypotheses hold at
the concrete world `wFresh` and the conclusion follows there. -/
theorem refresh_continuation_via_throttled_entry_witness :
    ((wFresh.updateObservers_ cbsOk envA).2.2.1 = false ∧
     (wFresh.updateObservers_ cbsOk envA).2.1 = true) ∧
    (wFresh.refresh cbsOk envA).2 =
      (wFresh.updateObservers_ cbsOk envA).2.2.2 ++ [Ev.throttleCall] ∧
    (wFresh.refresh cbsOk envA).1.ctrl.refreshPending = true := by
  exact ⟨⟨rfl, rfl⟩,
    refresh_continuation_via_throttled_entry wFresh cbsOk envA rfl rfl⟩

theorem connect_observers (c : ResizeObserverController) (ib mos : Bool) :
    (c.connect_ ib mos).1.observers_ = c.observers_ := by
  simp only [ResizeObserverController.connect_]
  split
  · rfl
  · split <;> rfl

theorem connect_connected (c : ResizeObserverController) (mos : Bool)
    (hc : c.connected_ = false) : (c.connect_ true mos).1.connected_ = true := by
  simp only [ResizeObserverController.connect_, hc, Bool.not_true, Bool.false_or,
    Bool.false_eq_true, if_false]
  split <;> rfl

theorem connect_events_ne (c : ResizeObserverController) (mos : Bool)
    (hc : c.connected_ = false) : (c.connect_ true mos).2 ≠ [] := by
  simp only [ResizeObserverController.connect_, hc, Bool.not_true, Bool.false_or,
    Bool.false_eq_true, if_false]
  split <;> simp

theorem disconnect_connected (c : ResizeObserverController)
    (hc : c.connected_ = true) : (c.disconnect_ true).1.connected_ = false := by
  simp [ResizeObserverController.disconnect_, hc]

theorem disconnect_observers (c : ResizeObserverController) (ib : Bool) :
    (c.disconnect_ ib).1.observers_ = c.observers_ := by
  simp only [ResizeObserverController.disconnect_]
  split <;> rfl

theorem disconnect_events_ne (c : ResizeObserverController)
    (hc : c.connected_ = true) : (c.disconnect_ true).2 ≠ [] := by
  simp [ResizeObserverController.disconnect_, hc]

theorem observers_ne_nil_of_contains {c : ResizeObserverController} {i : Nat}
    (h : c.observers_.contains i = true) : c.observers_ ≠ [] := by
  intro he
  rw [he] at h
  simp at h

theorem wfController_iff (c : ResizeObserverController) :
    wfController c = true ↔ c.connected_ = !c.observers_.isEmpty := by
  simp [wfController]

theorem addObserver_already_present (c : ResizeObserverController) (mos : Bool) (i : Nat)
    (h : c.observers_.contains i = true) :
    (c.addObserver true mos i).1.observers_ = c.observers_ := by
  simp only [ResizeObserverController.addObserver, h, if_true]
  split
  · rw [connect_observers]
  · rfl

theorem addObserver_wf (c : ResizeObserverController) (mos : Bool) (i : Nat)
    (hwf : wfController c = true) : wfController (c.addObserver true mos i).1 = true := by
  rw [wfController_iff] at hwf ⊢
  by_cases hcont : c.observers_.contains i = true
  · have hne := observers_ne_nil_of_contains hcont
    have hconn : c.connected_ = true := by
      rw [hwf]
      simp [List.isEmpty_iff, hne]
    simp only [ResizeObserverController.addObserver, hcont, if_true, hconn, Bool.not_true,
      Bool.false_eq_true, if_false]
    rw [hconn] at hwf
    exact hwf
  · simp only [ResizeObserverController.addObserver, hcont, Bool.false_eq_true, if_false]
    by_cases hconn : c.connected_ = true
    · simp only [hconn, Bool.not_true, Bool.false_eq_true, if_false]
      simp [hconn, List.isEmpty_iff]
    · have hc2 : c.connected_ = false := by
        revert hconn
        cases c.connected_ <;> simp
      simp only [hc2, Bool.not_false, if_true]
      rw [connect_connected _ _ rfl, connect_observers]
      simp [List.isEmpty_iff]

theorem removeObserver_wf (c : ResizeObserverController) (i : Nat)
    (hwf : wfController c = true) : wfController (c.removeObserver true i).1 = true := by
  rw [wfController_iff] at hwf ⊢
  simp only [ResizeObserverController.removeObserver]
  by_cases hemp : (c.observers_.erase i).isEmpty = true
  · by_cases hconn : c.connected_ = true
    · simp only [hemp, hconn, Bool.and_self, if_true]
      rw [disconnect_connected _ rfl, disconnect_observers]
      simp [hemp]
    · have hc2 : c.connected_ = false := by
        revert hconn
        cases c.connected_ <;> simp
      simp only [hemp, hc2, Bool.and_false, Bool.false_eq_true, if_false]
      simp [hc2, hemp]
  · have hemp2 : (c.observers_.erase i).isEmpty = false := by
      revert hemp
      cases (c.observers_.erase i).isEmpty <;> simp
    have hne : c.observers_ ≠ [] := by
      intro he
      rw [he] at hemp2
      simp at hemp2
    have hconn : c.connected_ = true := by
      rw [hwf]
      simp [List.isEmpty_iff, hne]
    simp only [hemp2, Bool.false_and, Bool.false_eq_true, if_false]
    simp [hconn, hemp2]

theorem addObserver_no_resubscribe (c : ResizeObserverController) (mos : Bool) (i : Nat)
    (hwf : wfController c = true) (hne : c.observers_ ≠ []) :
    (c.addObserver true mos i).2 = [] := by
  rw [wfController_iff] at hwf
  have hconn : c.connected_ = true := by
    rw [hwf]
    simp [List.isEmpty_iff, hne]
  simp only [ResizeObserverController.addObserver]
  by_cases hmem : i ∈ c.observers_
  · simp [hmem, hconn]
  · simp [hmem, hconn]

theorem addObserver_subscribes_on_first (c : ResizeObserverController) (mos : Bool)
    (i : Nat) (hwf : wfController c = true) (hemp : c.observers_ = []) :
    (c.addObserver true mos i).1.connected_ = true ∧
    (c.addObserver true mos i).2 ≠ [] := by
  rw [wfController_iff] at hwf
  have hconn : c.connected_ = false := by
    rw [hwf, hemp]
    rfl
  have hcont : c.observers_.contains i = false := by
    rw [hemp]
    rfl
  simp only [ResizeObserverController.addObserver, hcont, Bool.false_eq_true, if_false,
    hconn, Bool.not_false, if_true]
  exact ⟨connect_connected _ _ rfl, connect_events_ne _ _ rfl⟩

theorem removeObserver_teardown_on_last (c : ResizeObserverController) (i : Nat)
    (hwf : wfController c = true) (hobs : c.observers_ = [i]) :
    (c.removeObserver true i).1.connected_ = false ∧
    (c.removeObserver true i).1.observers_ = [] ∧
    (c.removeObserver true i).2 ≠ [] := by
  rw [wfController_iff] at hwf
  have hconn : c.connected_ = true := by
    rw [hwf, hobs]
    rfl
  have her : c.observers_.erase i = [] := by
    rw [hobs]
    simp
  simp only [ResizeObserverController.removeObserver, her, List.isEmpty_nil, hconn,
    Bool.and_self, if_true]
  refine ⟨disconnect_connected _ rfl, ?_, disconnect_events_ne _ rfl⟩
  rw [disconnect_observers]

/-- Claim C7: the controller's observer list has set semantics (`addObserver`
with an already-present instance leaves the list unchanged), the
connected-iff-non-empty invariant holds initially and is preserved by
`addObserver`/`removeObserver` (in a browser environment), already-connected
`addObserver` calls install no subscriptions, subscriptions are installed
exactly on the empty-to-non-empty transition, and `removeObserver` of the
last instance tears the subscriptions down. -/
theorem controller_set_semantics_and_single_subscription :
    (∀ (c : ResizeObserverController) (mos : Bool) (i : Nat),
      c.observers_.contains i = true →
        (c.addObserver true mos i).1.observers_ = c.observers_) ∧
    (wfController ResizeObserverController.init = true) ∧
    (∀ (c : ResizeObserverController) (mos : Bool) (i : Nat),
      wfController c = true → wfController (c.addObserver true mos i).1 = true) ∧
    (∀ (c : ResizeObserverController) (i : Nat),
      wfController c = true → wfController (c.removeObserver true i).1 = true) ∧
    (∀ (c : ResizeObserverController) (mos : Bool) (i : Nat),
      wfController c = true → c.observers_ ≠ [] → (c.addObserver true mos i).2 = []) ∧
    (∀ (c : ResizeObserverController) (mos : Bool) (i : Nat),
      wfController c = true → c.observers_ = [] →
        (c.addObserver true mos i).1.connected_ = true ∧
        (c.addObserver true mos i).2 ≠ []) ∧
    (∀ (c : ResizeObserverController) (i : Nat),
      wfController c = true → c.observers_ = [i] →
        (c.removeObserver true i).1.connected_ = false ∧
        (c.removeObserver true i).1.observers_ = [] ∧
        (c.removeObserver true i).2 ≠ []) := by
  exact ⟨addObserver_already_present, rfl, addObserver_wf, removeObserver_wf,
    addObserver_no_resubscribe, addObserver_subscribes_on_first,
    removeObserver_teardown_on_last⟩

/-- Witness for C7: the hypotheses of each part are discharged at concrete
controllers (`ctrlOne` is connected and tracks instance 0;
`ResizeObserverController.init` is empty and disconnected). -/
theorem controller_set_semantics_and_single_subscription_witness :
    ((ctrlOne.addObserver true true 0).1.observers_ = ctrlOne.observers_) ∧
    ((ctrlOne.addObserver true true 5).2 = []) ∧
    ((ResizeObserverController.init.addObserver true true 0).1.connected_ = true) ∧
    ((ctrlOne.removeObserver true 0).1.connected_ = false) ∧
    (wfController (ctrlOne.addObserver true true 5).1 = true) ∧
    (wfController (ctrlOne.removeObserver true 0).1 = true) := by
  have h := controller_set_semantics_and_single_subscription
  refine ⟨h.1 ctrlOne true 0 rfl, ?_, ?_, ?_, ?_, ?_⟩
  · exact h.2.2.2.2.1 ctrlOne true 5 rfl (by simp [ctrlOne])
  · exact (h.2.2.2.2.2.1 ResizeObserverController.init true 0 rfl rfl).1
  · exact (h.2.2.2.2.2.2 ctrlOne 0 rfl rfl).1
  · exact h.2.2.1 ctrlOne true 5 rfl
  · exact h.2.2.2.1 ctrlOne 0 rfl
